import Mathlib

/-
  Verification of the keriox in-memory storage layer and notification bus.

  Shallow embedding of:
    src/keriox_core/src/database/memory.rs
    src/keriox_core/src/processor/notification.rs

  Modelling conventions:
  - Rust std HashMap is modelled as an association list with unique keys.
    HashMap::insert replaces the value in place; entry().or_default() followed
    by a mutation is modelled by aupsert.  A fresh key is appended at the end.
    Rust leaves the iteration order of a HashMap unspecified; the model
    realizes one admissible order (first-insertion order of keys).
  - RwLock and Arc are erased: methods become pure state-passing functions.
    A Rust method that mutates &self and returns Result is modelled as a
    function returning the new state paired with an Except result, so that
    the state at the moment an error is returned stays observable.
  - The Timestamped wrapper adds a wall-clock ingestion timestamp; wall-clock
    time is outside the embedding, so a stored timestamped event is modelled
    by the signed event alone.
  - IdentifierState and its apply method live outside the given sources
    (state.rs); memory.rs uses them opaquely (Clone + Default + apply), so
    the database is parameterized by an arbitrary state type and an
    arbitrary fallible apply function.
-/

deriving instance DecidableEq for Except

namespace Keriox

/-- Association list lookup: first entry whose key matches. -/
def alookup {K V : Type} [DecidableEq K] : List (K × V) → K → Option V
  | [], _ => none
  | (k', v) :: rest, k => if k' = k then some v else alookup rest k

/-- HashMap::insert — replace the value at an existing key in place, append a
fresh key at the end. -/
def ainsert {K V : Type} [DecidableEq K] : List (K × V) → K → V → List (K × V)
  | [], k, v => [(k, v)]
  | (k', v') :: rest, k, v =>
      if k' = k then (k', v) :: rest else (k', v') :: ainsert rest k v

/-- entry(k).or_default() followed by an in-place mutation f of the value. -/
def aupsert {K V : Type} [DecidableEq K] (dflt : V) (f : V → V) :
    List (K × V) → K → List (K × V)
  | [], k => [(k, f dflt)]
  | (k', v) :: rest, k =>
      if k' = k then (k', f v) :: rest else (k', v) :: aupsert dflt f rest k

/-- get_mut(k) followed by an in-place mutation f; a no-op when the key is
absent. -/
def aadjust {K V : Type} [DecidableEq K] (f : V → V) :
    List (K × V) → K → List (K × V)
  | [], _ => []
  | (k', v) :: rest, k =>
      if k' = k then (k', f v) :: rest else (k', v) :: aadjust f rest k

theorem alookup_ainsert_self {K V : Type} [DecidableEq K]
    (m : List (K × V)) (k : K) (v : V) : alookup (ainsert m k v) k = some v := by
  induction m with
  | nil => simp [ainsert, alookup]
  | cons kv rest ih =>
      obtain ⟨k', v'⟩ := kv
      by_cases h : k' = k <;> simp [ainsert, alookup, h, ih]

theorem alookup_ainsert_ne {K V : Type} [DecidableEq K]
    (m : List (K × V)) (k k' : K) (v : V) (h : k' ≠ k) :
    alookup (ainsert m k v) k' = alookup m k' := by
  have hk : ¬ k = k' := fun h2 => h h2.symm
  induction m with
  | nil => simp [ainsert, alookup, hk]
  | cons kv rest ih =>
      obtain ⟨k0, v0⟩ := kv
      by_cases h0 : k0 = k
      · subst h0
        simp [ainsert, alookup, hk]
      · by_cases h1 : k0 = k' <;> simp [ainsert, alookup, h, h0, h1, ih]

theorem ainsert_lookup_eq {K V : Type} [DecidableEq K]
    (m : List (K × V)) (k : K) (v : V) (h : alookup m k = some v) :
    ainsert m k v = m := by
  induction m with
  | nil => simp [alookup] at h
  | cons kv rest ih =>
      obtain ⟨k', v'⟩ := kv
      by_cases h0 : k' = k
      · subst h0
        simp [alookup] at h
        simp [ainsert, h]
      · simp [alookup, h0] at h
        simp [ainsert, h0, ih h]

theorem alookup_aupsert_self {K V : Type} [DecidableEq K]
    (dflt : V) (f : V → V) (m : List (K × V)) (k : K) :
    alookup (aupsert dflt f m k) k = some (f ((alookup m k).getD dflt)) := by
  induction m with
  | nil => simp [aupsert, alookup]
  | cons kv rest ih =>
      obtain ⟨k', v'⟩ := kv
      by_cases h : k' = k <;> simp [aupsert, alookup, h, ih]

theorem alookup_aupsert_ne {K V : Type} [DecidableEq K]
    (dflt : V) (f : V → V) (m : List (K × V)) (k k' : K) (h : k' ≠ k) :
    alookup (aupsert dflt f m k) k' = alookup m k' := by
  have hk : ¬ k = k' := fun h2 => h h2.symm
  induction m with
  | nil => simp [aupsert, alookup, hk]
  | cons kv rest ih =>
      obtain ⟨k0, v0⟩ := kv
      by_cases h0 : k0 = k
      · subst h0
        simp [aupsert, alookup, hk]
      · by_cases h1 : k0 = k' <;> simp [aupsert, alookup, h, h0, h1, ih]

theorem alookup_aadjust_self {K V : Type} [DecidableEq K]
    (f : V → V) (m : List (K × V)) (k : K) :
    alookup (aadjust f m k) k = (alookup m k).map f := by
  induction m with
  | nil => simp [aadjust, alookup]
  | cons kv rest ih =>
      obtain ⟨k', v'⟩ := kv
      by_cases h : k' = k <;> simp [aadjust, alookup, h, ih]

theorem alookup_aadjust_ne {K V : Type} [DecidableEq K]
    (f : V → V) (m : List (K × V)) (k k' : K) (h : k' ≠ k) :
    alookup (aadjust f m k) k' = alookup m k' := by
  have hk : ¬ k = k' := fun h2 => h h2.symm
  induction m with
  | nil => simp [aadjust, alookup]
  | cons kv rest ih =>
      obtain ⟨k0, v0⟩ := kv
      by_cases h0 : k0 = k
      · subst h0
        simp [aadjust, alookup, hk]
      · by_cases h1 : k0 = k' <;> simp [aadjust, alookup, h, h0, h1, ih]

/-! ## Data model (src/keriox_core, types used opaquely by memory.rs) -/

/-- IdentifierPrefix: opaque identifier, equality and hashing only. -/
abbrev Ident := String

/-- SelfAddressingIdentifier: the event digest, opaque. -/
abbrev Digest := String

/-- Error kinds reachable from the modelled code paths. -/
inductive Error where
  | rwLockingError
  | semanticError (msg : String)
  deriving DecidableEq, Repr

/-- An indexed signature: the index into the current key list plus the raw
signature bytes. -/
structure IndexedSignature where
  index : Nat
  signature : String
  deriving DecidableEq, Repr

/-- A nontransferable couplet: signer public key plus signature. -/
structure Nontransferable where
  signer : String
  signature : String
  deriving DecidableEq, Repr

/-- A validator event seal of a transferable receipt. -/
structure EventSeal where
  ident : Ident
  sn : Nat
  digest : Digest
  deriving DecidableEq, Repr

/-- Transferable receipt contents: Transferable::Seal(seal, signatures).
The field holding the event seal is named eseal because seal is a Lean
keyword. -/
structure Transferable where
  eseal : EventSeal
  signatures : List IndexedSignature
  deriving DecidableEq, Repr

/-- The payload data of a key event: get_prefix() and get_sn() accessors. -/
structure KeyEventData where
  ident : Ident
  sn : Nat
  deriving DecidableEq, Repr

/-- KeriEvent of KeyEvent: the event message.  The fallible digest() method is
modelled as an Option field (none = the digest computation errors). -/
structure EventMessage where
  data : KeyEventData
  digest : Option Digest
  deriving DecidableEq, Repr

/-- A signed event message: event plus its indexed signatures. -/
structure SignedEventMessage where
  event_message : EventMessage
  signatures : List IndexedSignature
  deriving DecidableEq, Repr

/-- Receipt body: the digest of the receipted event, its identifier and its
sequence number. -/
structure Receipt where
  receipted_event_digest : Digest
  ident : Ident
  sn : Nat
  deriving DecidableEq, Repr

/-- A nontransferable receipt: body plus couplets. -/
structure SignedNontransferableReceipt where
  body : Receipt
  signatures : List Nontransferable
  deriving DecidableEq, Repr

/-- A transferable receipt: body, validator seal, indexed signatures. -/
structure SignedTransferableReceipt where
  body : Receipt
  validator_seal : EventSeal
  signatures : List IndexedSignature
  deriving DecidableEq, Repr

/-! ## MemoryLogDatabase (memory.rs lines 231-393) -/

/-- In-memory log database: events, signatures, nontransferable couplets and
transferable receipts, all keyed by the event digest. -/
structure MemoryLogDatabase where
  events : List (Digest × SignedEventMessage)
  signatures : List (Digest × List IndexedSignature)
  nontrans_couplets : List (Digest × List Nontransferable)
  trans_receipts : List (Digest × List Transferable)
  deriving DecidableEq, Repr

/-- MemoryLogDatabase::new. -/
def MemoryLogDatabase.new : MemoryLogDatabase :=
  { events := [], signatures := [], nontrans_couplets := [], trans_receipts := [] }

/-- log_event_internal: if the digest computation succeeds, insert the event
and its signatures under the digest (HashMap::insert semantics: the previous
value at the digest, if any, is replaced); if it fails, silently do nothing. -/
def log_event_internal (log : MemoryLogDatabase) (event : SignedEventMessage) :
    MemoryLogDatabase :=
  match event.event_message.digest with
  | none => log
  | some d =>
      { log with
        events := ainsert log.events d event
        signatures := ainsert log.signatures d event.signatures }

/-- log_receipt_internal: extend the couplet list at the receipted event
digest with the receipt's couplets (entry().or_default().extend(..)). -/
def log_receipt_internal (log : MemoryLogDatabase)
    (receipt : SignedNontransferableReceipt) : MemoryLogDatabase :=
  { log with
    nontrans_couplets :=
      aupsert [] (fun l => l ++ receipt.signatures) log.nontrans_couplets
        receipt.body.receipted_event_digest }

/-- LogDatabase::log_event — delegates to log_event_internal and returns Ok. -/
def log_event (log : MemoryLogDatabase) (signed_event : SignedEventMessage) :
    MemoryLogDatabase × Except Error Unit :=
  (log_event_internal log signed_event, .ok ())

/-- LogDatabase::log_receipt — delegates to log_receipt_internal, returns Ok. -/
def log_receipt (log : MemoryLogDatabase)
    (signed_receipt : SignedNontransferableReceipt) :
    MemoryLogDatabase × Except Error Unit :=
  (log_receipt_internal log signed_receipt, .ok ())

/-- get_signed_event: lookup by digest, never an error. -/
def get_signed_event (log : MemoryLogDatabase) (said : Digest) :
    Except Error (Option SignedEventMessage) :=
  .ok (alookup log.events said)

/-- get_signatures: lookup of the signature side index by digest. -/
def get_signatures (log : MemoryLogDatabase) (said : Digest) :
    Except Error (Option (List IndexedSignature)) :=
  .ok (alookup log.signatures said)

/-- get_nontrans_couplets: lookup of the couplet list by digest. -/
def get_nontrans_couplets (log : MemoryLogDatabase) (said : Digest) :
    Except Error (Option (List Nontransferable)) :=
  .ok (alookup log.nontrans_couplets said)

/-- remove_nontrans_receipt: retain only couplets not in the given set. -/
def remove_nontrans_receipt (log : MemoryLogDatabase) (said : Digest)
    (nontrans : List Nontransferable) : MemoryLogDatabase × Except Error Unit :=
  ({ log with
     nontrans_couplets :=
       aadjust (fun l => l.filter (fun n => !(nontrans.contains n)))
         log.nontrans_couplets said },
   .ok ())

/-! ## MemorySequencedEventDb (memory.rs lines 395-470) -/

/-- In-memory sequenced event database: (identifier, sn) to digests. -/
structure MemorySequencedEventDb where
  data : List ((Ident × Nat) × List Digest)
  deriving DecidableEq, Repr

/-- MemorySequencedEventDb::new. -/
def MemorySequencedEventDb.new : MemorySequencedEventDb := { data := [] }

/-- SequencedEventDatabase::insert: push the digest onto the vector at
(identifier, sn), creating an empty vector first when the key is absent. -/
def seq_insert (s : MemorySequencedEventDb) (identifier : Ident) (sn : Nat)
    (digest : Digest) : MemorySequencedEventDb :=
  { data := aupsert [] (fun l => l ++ [digest]) s.data (identifier, sn) }

/-- SequencedEventDatabase::get: the digest vector at (identifier, sn), empty
when absent.  The code returns this through Ok; the Except wrapper is kept at
the call sites that need it. -/
def seq_get (s : MemorySequencedEventDb) (identifier : Ident) (sn : Nat) :
    List Digest :=
  (alookup s.data (identifier, sn)).getD []

/-- SequencedEventDatabase::get_greater_than: iterate the whole map, keep the
entries of this identifier with sequence at least sn, and concatenate their
digest vectors.  The map is iterated in its (unspecified, here modelled as
first-insertion) order — no sorting is performed. -/
def seq_get_greater_than (s : MemorySequencedEventDb) (identifier : Ident)
    (sn : Nat) : List Digest :=
  (s.data.filter (fun kv => decide (kv.1.1 = identifier ∧ sn ≤ kv.1.2))).flatMap
    (fun kv => kv.2)

/-- SequencedEventDatabase::remove: retain, in the vector at (identifier, sn),
only the digests different from said; a no-op when the key is absent. -/
def seq_remove (s : MemorySequencedEventDb) (identifier : Ident) (sn : Nat)
    (said : Digest) : MemorySequencedEventDb :=
  { data := aadjust (fun l => l.filter (fun d => d != said)) s.data (identifier, sn) }

/-! ## MemoryEscrowDb (memory.rs lines 472-584) -/

/-- In-memory escrow database: its own sequenced index plus the log it shares
with the main database. -/
structure MemoryEscrowDb where
  sequenced : MemorySequencedEventDb
  log : MemoryLogDatabase
  deriving DecidableEq, Repr

/-- EscrowDatabase::save_digest. -/
def escrow_save_digest (e : MemoryEscrowDb) (id : Ident) (sn : Nat)
    (event_digest : Digest) : MemoryEscrowDb × Except Error Unit :=
  ({ e with sequenced := seq_insert e.sequenced id sn event_digest }, .ok ())

/-- EscrowDatabase::insert: the digest computation is fallible (the question
mark operator propagates its error); on success write the sequenced-index
pointer and log the event. -/
def escrow_insert (e : MemoryEscrowDb) (event : SignedEventMessage) :
    MemoryEscrowDb × Except Error Unit :=
  match event.event_message.digest with
  | none => (e, .error (.semanticError "digest"))
  | some d =>
      ({ e with
         sequenced := seq_insert e.sequenced event.event_message.data.ident
           event.event_message.data.sn d
         log := log_event_internal e.log event },
       .ok ())

/-- EscrowDatabase::get: hydrate the digests at (identifier, sn) through the
log; digests whose log lookup misses are silently skipped (filter_map on
get_signed_event(..).ok().flatten()). -/
def escrow_get (e : MemoryEscrowDb) (identifier : Ident) (sn : Nat) :
    Except Error (List SignedEventMessage) :=
  .ok ((seq_get e.sequenced identifier sn).filterMap
    (fun d => alookup e.log.events d))

/-- EscrowDatabase::get_from_sn: hydrate the digests returned by
get_greater_than through the log, skipping the ones missing from the log. -/
def escrow_get_from_sn (e : MemoryEscrowDb) (identifier : Ident) (sn : Nat) :
    Except Error (List SignedEventMessage) :=
  .ok ((seq_get_greater_than e.sequenced identifier sn).filterMap
    (fun d => alookup e.log.events d))

/-- EscrowDatabase::remove: when the digest computation succeeds, erase the
sequenced-index pointer; the log is not touched. -/
def escrow_remove (e : MemoryEscrowDb) (event : EventMessage) : MemoryEscrowDb :=
  match event.digest with
  | none => e
  | some d =>
      { e with sequenced := seq_remove e.sequenced event.data.ident event.data.sn d }

/-- EscrowDatabase::contains: membership of the digest in the sequenced index
at (id, sn). -/
def escrow_contains (e : MemoryEscrowDb) (id : Ident) (sn : Nat) (digest : Digest) :
    Except Error Bool :=
  .ok (decide (digest ∈ seq_get e.sequenced id sn))

/-! ## MemoryDatabase (memory.rs lines 29-229) -/

/-- The in-memory event database.  IdentifierState is opaque to memory.rs, so
the structure is parameterized by the state type. -/
structure MemoryDatabase (State : Type) where
  events : List (Ident × List SignedEventMessage)
  states : List (Ident × State)
  receipts_t : List ((Ident × Nat) × List Transferable)
  receipts_nt : List ((Ident × Nat) × List SignedNontransferableReceipt)
  log_db : MemoryLogDatabase
  deriving DecidableEq, Repr

/-- MemoryDatabase::new. -/
def MemoryDatabase.new {State : Type} : MemoryDatabase State :=
  { events := [], states := [], receipts_t := [], receipts_nt := [],
    log_db := MemoryLogDatabase.new }

/-- add_kel_finalized_event: read the current state (Default::default() when
none is stored), apply the event (the question mark operator propagates an
apply error before any write), then store the new state, log the event, and
push it onto the identifier's KEL vector. -/
def add_kel_finalized_event {State : Type} [Inhabited State]
    (applyFn : State → EventMessage → Except Error State)
    (db : MemoryDatabase State) (event : SignedEventMessage) (id : Ident) :
    MemoryDatabase State × Except Error Unit :=
  let current_state := (alookup db.states id).getD default
  match applyFn current_state event.event_message with
  | .error e => (db, .error e)
  | .ok new_state =>
      ({ db with
         states := ainsert db.states id new_state
         log_db := log_event_internal db.log_db event
         events := aupsert [] (fun l => l ++ [event]) db.events id },
       .ok ())

/-- add_receipt_t: push the receipt's seal and signatures, as a Transferable,
onto the vector at (id, receipt.body.sn). -/
def add_receipt_t {State : Type} (db : MemoryDatabase State)
    (receipt : SignedTransferableReceipt) (id : Ident) :
    MemoryDatabase State × Except Error Unit :=
  let transferable : Transferable :=
    { eseal := receipt.validator_seal, signatures := receipt.signatures }
  ({ db with
     receipts_t :=
       aupsert [] (fun l => l ++ [transferable]) db.receipts_t
         (id, receipt.body.sn) },
   .ok ())

/-- add_receipt_nt: push the receipt onto the vector at (id, receipt.body.sn). -/
def add_receipt_nt {State : Type} (db : MemoryDatabase State)
    (receipt : SignedNontransferableReceipt) (id : Ident) :
    MemoryDatabase State × Except Error Unit :=
  ({ db with
     receipts_nt :=
       aupsert [] (fun l => l ++ [receipt]) db.receipts_nt
         (id, receipt.body.sn) },
   .ok ())

/-- get_key_state. -/
def get_key_state {State : Type} (db : MemoryDatabase State) (id : Ident) :
    Option State :=
  alookup db.states id

/-- QueryParameters for get_kel_finalized_events. -/
inductive QueryParameters where
  | all (id : Ident)
  | bySn (id : Ident) (sn : Nat)
  | range (id : Ident) (start : Nat) (limit : Nat)
  deriving DecidableEq, Repr

/-- Wrapping 64-bit addition: sequence numbers, start and limit are u64 in the
source and the range upper bound start + limit is computed unchecked. -/
def wadd64 (a b : Nat) : Nat := (a + b) % 2 ^ 64

/-- get_kel_finalized_events: None when the identifier has no stored events;
otherwise All returns the whole vector, BySn filters on the exact sequence
number, Range keeps the events with start at most sn below start + limit. -/
def get_kel_finalized_events {State : Type} (db : MemoryDatabase State)
    (params : QueryParameters) : Option (List SignedEventMessage) :=
  match params with
  | .all id => alookup db.events id
  | .bySn id sn =>
      (alookup db.events id).map
        (fun evts => evts.filter (fun e => decide (e.event_message.data.sn = sn)))
  | .range id start limit =>
      (alookup db.events id).map
        (fun evts => evts.filter (fun e =>
          decide (start ≤ e.event_message.data.sn ∧
            e.event_message.data.sn < wadd64 start limit)))

/-- get_receipts_nt with BySn parameters (the only supported query). -/
def get_receipts_nt {State : Type} (db : MemoryDatabase State) (id : Ident)
    (sn : Nat) : Option (List SignedNontransferableReceipt) :=
  alookup db.receipts_nt (id, sn)

/-- accept_to_kel: a no-op on the in-memory backend. -/
def accept_to_kel {State : Type} (db : MemoryDatabase State)
    (_event : EventMessage) : MemoryDatabase State × Except Error Unit :=
  (db, .ok ())

/-! ## NotificationBus (notification.rs)

An observer's notify takes the notification and the bus, may mutate any state
it reaches through itself or the bus, and returns a Result.  The embedding
abstracts the reachable world into a single state type, so an observer is a
function from the notification and the current world state to the new world
state paired with a Result.  The cyclic bus back-reference held in a OnceLock
is modelled by a Boolean field recording whether the OnceLock has been set. -/

/-- Notification: a typed fact plus its payload.  The DupliciousEvent spelling
is the source's. -/
inductive Notification where
  | keyEventAdded (e : SignedEventMessage)
  | outOfOrder (e : SignedEventMessage)
  | partiallySigned (e : SignedEventMessage)
  | partiallyWitnessed (e : SignedEventMessage)
  | receiptAccepted
  | receiptEscrowed
  | receiptOutOfOrder (r : SignedNontransferableReceipt)
  | transReceiptOutOfOrder (r : SignedTransferableReceipt)
  | dupliciousEvent (e : SignedEventMessage)
  | missingDelegatingEvent (e : SignedEventMessage)
  deriving DecidableEq, Repr

/-- JustNotification: the notification kind tag observers register for. -/
inductive JustNotification where
  | keyEventAdded
  | outOfOrder
  | partiallySigned
  | partiallyWitnessed
  | receiptAccepted
  | receiptEscrowed
  | receiptOutOfOrder
  | transReceiptOutOfOrder
  | duplicitousEvent
  | missingDelegatingEvent
  deriving DecidableEq, Repr

/-- The From conversion dropping the payload. -/
def JustNotification.ofNotification : Notification → JustNotification
  | .keyEventAdded _ => .keyEventAdded
  | .outOfOrder _ => .outOfOrder
  | .partiallySigned _ => .partiallySigned
  | .partiallyWitnessed _ => .partiallyWitnessed
  | .receiptAccepted => .receiptAccepted
  | .receiptEscrowed => .receiptEscrowed
  | .receiptOutOfOrder _ => .receiptOutOfOrder
  | .transReceiptOutOfOrder _ => .transReceiptOutOfOrder
  | .dupliciousEvent _ => .duplicitousEvent
  | .missingDelegatingEvent _ => .missingDelegatingEvent

/-- An observer: Notifier::notify over an abstract world state. -/
def Observer (W : Type) := Notification → W → W × Except Error Unit

/-- InProcessDispatch: the observer registry plus the OnceLock back-reference
to the owning bus, modelled by whether it has been set. -/
structure InProcessDispatch (W : Type) where
  observers : List (JustNotification × List (Observer W))
  busSet : Bool

/-- InProcessDispatch::new: empty registry, OnceLock not yet set. -/
def InProcessDispatch.new {W : Type} : InProcessDispatch W :=
  { observers := [], busSet := false }

/-- OnceLock::set on the bus back-reference: succeeds only the first time. -/
def setBusRef {W : Type} (d : InProcessDispatch W) : InProcessDispatch W :=
  if d.busSet then d else { d with busSet := true }

/-- NotificationBus::new: construct the dispatch and set the back-reference
before returning.  A bus with the default in-process dispatch is identified
with its dispatch state. -/
def NotificationBus.new {W : Type} : InProcessDispatch W :=
  setBusRef InProcessDispatch.new

/-- The loop body of InProcessDispatch::dispatch: call each observer in
registration order; the question mark operator on notify returns the first
error immediately, so observers after a failing one do not run. -/
def notifyAll {W : Type} (obs : List (Observer W)) (n : Notification) (s : W) :
    W × Except Error Unit :=
  match obs with
  | [] => (s, .ok ())
  | o :: rest =>
      match o n s with
      | (s', .error e) => (s', .error e)
      | (s', .ok _) => notifyAll rest n s'

/-- The delivery done by dispatch once the bus back-reference is available:
look up the observers registered for the notification's kind and run them. -/
def deliverByKind {W : Type} (d : InProcessDispatch W) (n : Notification)
    (s : W) : W × Except Error Unit :=
  match alookup d.observers (JustNotification.ofNotification n) with
  | some obs => notifyAll obs n s
  | none => (s, .ok ())

/-- InProcessDispatch::dispatch: fail when the bus back-reference was never
set, otherwise deliver to the observers of the notification's kind. -/
def dispatch {W : Type} (d : InProcessDispatch W) (n : Notification) (s : W) :
    W × Except Error Unit :=
  if d.busSet then deliverByKind d n s
  else (s, .error (.semanticError "InProcessDispatch: bus back-reference not set"))

/-- register_observer: append the observer to the registration list of every
kind in notifications (entry().or_default().push(..)). -/
def register_observer {W : Type} (d : InProcessDispatch W) (o : Observer W)
    (notifications : List JustNotification) : InProcessDispatch W :=
  { d with
    observers :=
      notifications.foldl (fun m k => aupsert [] (fun l => l ++ [o]) m k)
        d.observers }

/-- A sequence of register_observer calls applied in order. -/
def registerAll {W : Type} (d : InProcessDispatch W)
    (regs : List (Observer W × List JustNotification)) : InProcessDispatch W :=
  regs.foldl (fun d p => register_observer d p.1 p.2) d

/-- Modelled from the spec: the delivery loop the specification describes —
every observer registered for the kind is invoked, in registration order, and
the first failure is surfaced only after all deliveries complete.  This
definition follows the spec's words and is compared against notifyAll, which
is translated from the code. -/
def notifyAllSpec {W : Type} (obs : List (Observer W)) (n : Notification)
    (s : W) : W × Except Error Unit :=
  match obs with
  | [] => (s, .ok ())
  | o :: rest =>
      let (s1, r1) := o n s
      let (s2, r2) := notifyAllSpec rest n s1
      (s2, match r1 with | .error e => .error e | .ok _ => r2)

/-- Modelled from the spec: dispatch with the spec's continue-on-error
delivery loop in place of the code's. -/
def dispatchSpec {W : Type} (d : InProcessDispatch W) (n : Notification)
    (s : W) : W × Except Error Unit :=
  if d.busSet then
    match alookup d.observers (JustNotification.ofNotification n) with
    | some obs => notifyAllSpec obs n s
    | none => (s, .ok ())
  else (s, .error (.semanticError "InProcessDispatch: bus back-reference not set"))

/-! ## Shared helper lemmas -/

theorem notifyAll_append_of_error {W : Type} (obs post : List (Observer W))
    (n : Notification) (s s' : W) (e : Error)
    (herr : notifyAll obs n s = (s', .error e)) :
    notifyAll (obs ++ post) n s = (s', .error e) := by
  induction obs generalizing s with
  | nil => simp [notifyAll] at herr
  | cons o rest ih =>
      simp only [List.cons_append, notifyAll] at herr ⊢
      cases ho : o n s with
      | mk s1 r =>
          rw [ho] at herr
          cases r with
          | error e2 => simpa using herr
          | ok u => exact ih s1 (by simpa using herr)

theorem register_observer_busSet {W : Type} (d : InProcessDispatch W)
    (o : Observer W) (ks : List JustNotification) :
    (register_observer d o ks).busSet = d.busSet := rfl

theorem registerAll_busSet {W : Type} (d : InProcessDispatch W)
    (regs : List (Observer W × List JustNotification)) :
    (registerAll d regs).busSet = d.busSet := by
  induction regs generalizing d with
  | nil => rfl
  | cons r rest ih => simpa [registerAll] using ih (register_observer d r.1 r.2)

/-! ## Example material for the notification bus claims -/

/-- An observer whose notify always fails. -/
def obsFailing : Observer Nat := fun _ s => (s, .error (.semanticError "boom"))

/-- An observer whose notify increments the world counter and succeeds;
the counter records whether it was ever invoked. -/
def obsCounting : Observer Nat := fun _ s => (s + 1, .ok ())

/-- A bus built by NotificationBus::new followed by two register_observer
calls for the ReceiptAccepted kind: first the failing observer, then the
counting observer. -/
def c1Bus : InProcessDispatch Nat :=
  registerAll NotificationBus.new
    [(obsFailing, [JustNotification.receiptAccepted]),
     (obsCounting, [JustNotification.receiptAccepted])]

/-- C1 counterexample: on the bus where a failing observer is registered
before a counting observer for ReceiptAccepted, the code's dispatch differs
from the spec's dispatch (invoke all, surface the first error at the end).
The code stops at the failing observer and returns its error with the
counter still 0; the spec's delivery would leave the counter at 1. -/
theorem c1_counterexample :
    dispatch c1Bus Notification.receiptAccepted 0 ≠
      dispatchSpec c1Bus Notification.receiptAccepted 0 := by
  decide

/-- C1 (amended): dispatch delivers in registration order, but an observer
error short-circuits delivery — observers registered after the failing one
for the same kind are not invoked, and the publisher receives the first
error immediately, not after the remaining deliveries. -/
theorem dispatch_error_short_circuits {W : Type} (d : InProcessDispatch W)
    (n : Notification) (s s' : W) (e : Error)
    (obs post : List (Observer W))
    (hb : d.busSet = true)
    (hreg : alookup d.observers (JustNotification.ofNotification n) =
      some (obs ++ post))
    (herr : notifyAll obs n s = (s', .error e)) :
    dispatch d n s = (s', .error e) := by
  simp only [dispatch, hb, if_true, deliverByKind, hreg]
  exact notifyAll_append_of_error obs post n s s' e herr

/-- Witness for the amended C1 theorem: on the concrete bus, publishing
ReceiptAccepted returns the failing observer's error with the counting
observer never invoked (counter still 0). -/
theorem dispatch_error_short_circuits_witness :
    dispatch c1Bus Notification.receiptAccepted 0 =
      (0, .error (.semanticError "boom")) :=
  dispatch_error_short_circuits c1Bus Notification.receiptAccepted 0 0
    (.semanticError "boom") [obsFailing] [obsCounting] rfl rfl rfl

/-- C8: for a bus created by NotificationBus::new — followed by any sequence
of register_observer calls, which do not touch the back-reference — the
OnceLock back-reference is set, so dispatch never takes the error branch for
the missing bus back-reference: it always performs the kind-indexed
delivery. -/
theorem bus_new_backref_always_set {W : Type}
    (regs : List (Observer W × List JustNotification)) (n : Notification)
    (s : W) :
    (registerAll (NotificationBus.new : InProcessDispatch W) regs).busSet = true ∧
    dispatch (registerAll (NotificationBus.new : InProcessDispatch W) regs) n s =
      deliverByKind (registerAll (NotificationBus.new : InProcessDispatch W) regs) n s := by
  have hb : (registerAll (NotificationBus.new : InProcessDispatch W) regs).busSet = true := by
    rw [registerAll_busSet]
    rfl
  exact ⟨hb, by simp [dispatch, hb]⟩

/-! ## Key state as a fold over the KEL (claims about add_kel_finalized_event) -/

/-- The stored KEL of an identifier: the event vector, empty when absent. -/
def kel {State : Type} (db : MemoryDatabase State) (id : Ident) :
    List SignedEventMessage :=
  (alookup db.events id).getD []

/-- Left fold of the apply function over a list of signed events, stopping at
the first apply error. -/
def foldState {State : Type}
    (applyFn : State → EventMessage → Except Error State) :
    State → List SignedEventMessage → Except Error State
  | s, [] => .ok s
  | s, e :: rest =>
      match applyFn s e.event_message with
      | .error err => .error err
      | .ok s' => foldState applyFn s' rest

/-- The key-state/KEL consistency invariant: for every identifier, the stored
key state is exactly the fold of apply over the stored KEL starting from the
default initial state, and an identifier with no stored state has an empty
KEL. -/
def StateInv {State : Type} [Inhabited State]
    (applyFn : State → EventMessage → Except Error State)
    (db : MemoryDatabase State) : Prop :=
  ∀ id, match alookup db.states id with
        | some s => foldState applyFn default (kel db id) = .ok s
        | none => kel db id = []

theorem foldState_snoc {State : Type}
    (applyFn : State → EventMessage → Except Error State) (s : State)
    (l : List SignedEventMessage) (e : SignedEventMessage) :
    foldState applyFn s (l ++ [e]) =
      match foldState applyFn s l with
      | .error err => .error err
      | .ok s' => applyFn s' e.event_message := by
  induction l generalizing s with
  | nil =>
      simp only [List.nil_append, foldState]
      cases h : applyFn s e.event_message <;> simp [foldState, h]
  | cons a rest ih =>
      simp only [List.cons_append, foldState]
      cases applyFn s a.event_message <;> simp [ih]

/-- C2: a successful add_kel_finalized_event stores exactly apply of the
previous state (the default when none was stored) and appends the event to
the identifier's KEL; consequently the invariant that every identifier's key
state is the left fold of apply over its stored KEL from the initial state
holds for the empty database and is preserved by every successful commit. -/
theorem add_kel_commit_is_apply_and_fold {State : Type} [Inhabited State]
    (applyFn : State → EventMessage → Except Error State)
    (db db' : MemoryDatabase State) (event : SignedEventMessage) (id : Ident)
    (h : add_kel_finalized_event applyFn db event id = (db', .ok ())) :
    (∃ s', applyFn ((alookup db.states id).getD default) event.event_message
        = .ok s' ∧
      alookup db'.states id = some s' ∧
      kel db' id = kel db id ++ [event]) ∧
    (StateInv applyFn db → StateInv applyFn db') ∧
    StateInv applyFn (MemoryDatabase.new : MemoryDatabase State) := by
  cases happly : applyFn ((alookup db.states id).getD default)
      event.event_message with
  | error e =>
      exfalso
      simp only [add_kel_finalized_event, happly] at h
      injection h with h1 h2
      exact Except.noConfusion h2
  | ok new_state =>
      simp only [add_kel_finalized_event, happly] at h
      injection h with h1 h2
      subst h1
      refine ⟨⟨new_state, rfl, ?_, ?_⟩, ?_, ?_⟩
      · exact alookup_ainsert_self ..
      · simp only [kel, alookup_aupsert_self, Option.getD_some]
      · intro hInv j
        by_cases hj : j = id
        · subst hj
          simp only [kel, alookup_ainsert_self, alookup_aupsert_self,
            Option.getD_some]
          rw [foldState_snoc]
          have hInvj := hInv j
          cases hstj : alookup db.states j with
          | some s =>
              rw [hstj] at hInvj
              simp only [kel] at hInvj
              rw [hInvj]
              rw [hstj] at happly
              simpa using happly
          | none =>
              rw [hstj] at hInvj
              simp only [kel] at hInvj
              rw [hInvj]
              simp only [foldState]
              rw [hstj] at happly
              simpa using happly
        · have hInvj := hInv j
          simp only [kel] at hInvj ⊢
          rw [alookup_ainsert_ne _ _ _ _ hj, alookup_aupsert_ne _ _ _ _ _ hj]
          exact hInvj
      · intro j
        simp [MemoryDatabase.new, alookup, kel]

/-- Concrete apply function used by the C2 witness: counts applied events. -/
def exApply : Nat → EventMessage → Except Error Nat := fun s _ => .ok (s + 1)

/-- A concrete signed event. -/
def exEvent : SignedEventMessage :=
  { event_message := { data := { ident := "I", sn := 0 }, digest := some "D0" },
    signatures := [{ index := 0, signature := "sg0" }] }

/-- The database after committing exEvent to the empty database. -/
def c2Db1 : MemoryDatabase Nat :=
  (add_kel_finalized_event exApply MemoryDatabase.new exEvent "I").1

/-- Witness for C2 at a concrete commit on the empty database. -/
theorem add_kel_commit_is_apply_and_fold_witness :
    ∃ s', exApply ((alookup (MemoryDatabase.new : MemoryDatabase Nat).states "I").getD
        default) exEvent.event_message = .ok s' ∧
      alookup c2Db1.states "I" = some s' ∧
      kel c2Db1 "I" = kel (MemoryDatabase.new : MemoryDatabase Nat) "I" ++ [exEvent] :=
  (add_kel_commit_is_apply_and_fold exApply MemoryDatabase.new c2Db1 exEvent
    "I" rfl).1

/-- C5: when add_kel_finalized_event returns an error — the only fallible
step, apply, runs before any write — the database is exactly as it was: no
store is modified. -/
theorem add_kel_error_leaves_db_unchanged {State : Type} [Inhabited State]
    (applyFn : State → EventMessage → Except Error State)
    (db db' : MemoryDatabase State) (event : SignedEventMessage) (id : Ident)
    (err : Error)
    (h : add_kel_finalized_event applyFn db event id = (db', .error err)) :
    db' = db := by
  cases happly : applyFn ((alookup db.states id).getD default)
      event.event_message with
  | error e =>
      simp only [add_kel_finalized_event, happly] at h
      injection h with h1 h2
      exact h1.symm
  | ok new_state =>
      exfalso
      simp only [add_kel_finalized_event, happly] at h
      injection h with h1 h2
      exact Except.noConfusion h2

/-- An apply function that always fails, for the C5 witness. -/
def exBadApply : Nat → EventMessage → Except Error Nat :=
  fun _ _ => .error (.semanticError "apply failed")

/-- Witness for C5: a failing commit on the empty database returns the error
and leaves the database equal to what it was. -/
theorem add_kel_error_leaves_db_unchanged_witness :
    add_kel_finalized_event exBadApply (MemoryDatabase.new : MemoryDatabase Nat)
        exEvent "I" =
      (MemoryDatabase.new, .error (.semanticError "apply failed")) ∧
    (MemoryDatabase.new : MemoryDatabase Nat) = MemoryDatabase.new :=
  ⟨rfl, add_kel_error_leaves_db_unchanged exBadApply MemoryDatabase.new
    MemoryDatabase.new exEvent "I" (.semanticError "apply failed") rfl⟩

/-! ## Receipt append behaviour (C3) -/

/-- A concrete nontransferable receipt. -/
def exNtReceipt : SignedNontransferableReceipt :=
  { body := { receipted_event_digest := "D0", ident := "I", sn := 0 },
    signatures := [{ signer := "W1", signature := "sg1" }] }

/-- The database after one submission of exNtReceipt. -/
def c3Db1 : MemoryDatabase Nat :=
  (add_receipt_nt MemoryDatabase.new exNtReceipt "I").1

/-- The database after submitting the identical receipt a second time. -/
def c3Db2 : MemoryDatabase Nat :=
  (add_receipt_nt c3Db1 exNtReceipt "I").1

/-- C3 counterexample: re-submitting a receipt whose (signer, signature)
pairs are already stored does not leave the stored list unchanged — the
second add_receipt_nt appends a duplicate entry. -/
theorem c3_counterexample :
    alookup c3Db2.receipts_nt ("I", 0) ≠ alookup c3Db1.receipts_nt ("I", 0) := by
  decide

/-- C3 (amended): add_receipt_nt and add_receipt_t push the receipt
unconditionally onto the stored vector at (id, sn), and log_receipt extends
the couplet list unconditionally — no deduplication by (signer, signature)
is performed, so repeated submission of the same receipt accumulates
duplicate entries. -/
theorem receipt_appends_do_not_dedupe {State : Type}
    (db : MemoryDatabase State) (rnt : SignedNontransferableReceipt)
    (rt : SignedTransferableReceipt) (id : Ident) (log : MemoryLogDatabase)
    (rc : SignedNontransferableReceipt) :
    alookup (add_receipt_nt db rnt id).1.receipts_nt (id, rnt.body.sn) =
      some (((alookup db.receipts_nt (id, rnt.body.sn)).getD []) ++ [rnt]) ∧
    alookup (add_receipt_t db rt id).1.receipts_t (id, rt.body.sn) =
      some (((alookup db.receipts_t (id, rt.body.sn)).getD []) ++
        [{ eseal := rt.validator_seal, signatures := rt.signatures }]) ∧
    alookup (log_receipt_internal log rc).nontrans_couplets
        rc.body.receipted_event_digest =
      some (((alookup log.nontrans_couplets
        rc.body.receipted_event_digest).getD []) ++ rc.signatures) :=
  ⟨alookup_aupsert_self .., alookup_aupsert_self .., alookup_aupsert_self ..⟩

/-! ## Log idempotence on digest (C6) -/

/-- C6: logging an event whose digest D already maps to exactly that event
(with its signatures in the side index) succeeds and leaves the log
unchanged — HashMap::insert with an equal value is a no-op.  The refreshed
ingestion timestamp is outside the model. -/
theorem log_event_same_digest_noop (log : MemoryLogDatabase)
    (event : SignedEventMessage) (D : Digest)
    (hd : event.event_message.digest = some D)
    (he : alookup log.events D = some event)
    (hs : alookup log.signatures D = some event.signatures) :
    log_event log event = (log, .ok ()) := by
  simp [log_event, log_event_internal, hd, ainsert_lookup_eq _ _ _ he,
    ainsert_lookup_eq _ _ _ hs]

/-- The log after logging exEvent once. -/
def c6Log : MemoryLogDatabase := log_event_internal MemoryLogDatabase.new exEvent

/-- Witness for C6: logging exEvent a second time returns Ok and the exact
same log. -/
theorem log_event_same_digest_noop_witness :
    log_event c6Log exEvent = (c6Log, .ok ()) :=
  log_event_same_digest_noop c6Log exEvent "D0" rfl rfl rfl

/-! ## Range queries (C10) -/

/-- C10: when start + limit does not overflow u64, the Range query returns
exactly the stored events with start at most sn below start + limit, in
stored commit order (the filter preserves the vector order). -/
theorem get_kel_range_is_filter {State : Type} (db : MemoryDatabase State)
    (id : Ident) (start limit : Nat) (evts : List SignedEventMessage)
    (hov : start + limit < 2 ^ 64)
    (hst : alookup db.events id = some evts) :
    get_kel_finalized_events db (.range id start limit) =
      some (evts.filter (fun e => decide (start ≤ e.event_message.data.sn ∧
        e.event_message.data.sn < start + limit))) := by
  have hmod : wadd64 start limit = start + limit := Nat.mod_eq_of_lt hov
  simp [get_kel_finalized_events, hst, hmod]

/-- A signed event on identifier I with the given sequence number. -/
def mkEvent (sn : Nat) : SignedEventMessage :=
  { event_message :=
      { data := { ident := "I", sn := sn },
        digest := some (String.append "D" (toString sn)) },
    signatures := [] }

/-- A database whose KEL for I holds events at sequences 0, 1 and 2. -/
def c10Db : MemoryDatabase Nat :=
  { events := [("I", [mkEvent 0, mkEvent 1, mkEvent 2])], states := [],
    receipts_t := [], receipts_nt := [], log_db := MemoryLogDatabase.new }

/-- Witness for C10: Range with start 1 and limit 1 on the concrete database
returns exactly the event at sequence 1. -/
theorem get_kel_range_is_filter_witness :
    get_kel_finalized_events c10Db (.range "I" 1 1) =
      some (([mkEvent 0, mkEvent 1, mkEvent 2]).filter
        (fun e => decide (1 ≤ e.event_message.data.sn ∧
          e.event_message.data.sn < 1 + 1))) :=
  get_kel_range_is_filter c10Db "I" 1 1 [mkEvent 0, mkEvent 1, mkEvent 2]
    (by decide) rfl

/-! ## Order of the sequenced range iterator (C4) -/

/-- A sequenced database where the entry at sequence 2 was inserted before
the entry at sequence 1, so the map's iteration order is 2 then 1. -/
def c4Seq : MemorySequencedEventDb :=
  seq_insert (seq_insert MemorySequencedEventDb.new "I" 2 "D2") "I" 1 "D1"

/-- C4 counterexample: the entries of identifier I with sequence at least 0
are D1 at sequence 1 and D2 at sequence 2, so an iterator ascending by
sequence would yield D1 then D2; get_greater_than iterates the hash map in
its own (here: insertion) order without sorting and yields D2 then D1. -/
theorem c4_counterexample :
    seq_get_greater_than c4Seq "I" 0 ≠ ["D1", "D2"] := by
  decide

/-- Stable insertion into a list of (key, digests) entries, ascending by the
sequence component of the key. -/
def insertBySn (x : (Ident × Nat) × List Digest) :
    List ((Ident × Nat) × List Digest) → List ((Ident × Nat) × List Digest)
  | [] => [x]
  | y :: ys => if x.1.2 ≤ y.1.2 then x :: y :: ys else y :: insertBySn x ys

/-- Insertion sort of (key, digests) entries by sequence number. -/
def sortBySn : List ((Ident × Nat) × List Digest) →
    List ((Ident × Nat) × List Digest)
  | [] => []
  | x :: xs => insertBySn x (sortBySn xs)

/-- Modelled from the spec: the range iterator the specification describes —
the matching entries in ascending order of sequence number, each entry's
digests in insertion order.  Compared against seq_get_greater_than, which is
translated from the code. -/
def seq_range_spec (s : MemorySequencedEventDb) (identifier : Ident)
    (sn : Nat) : List Digest :=
  (sortBySn (s.data.filter
    (fun kv => decide (kv.1.1 = identifier ∧ sn ≤ kv.1.2)))).flatMap
    (fun kv => kv.2)

theorem perm_insertBySn (x : (Ident × Nat) × List Digest)
    (l : List ((Ident × Nat) × List Digest)) :
    List.Perm (insertBySn x l) (x :: l) := by
  induction l with
  | nil => exact List.Perm.refl _
  | cons y ys ih =>
      simp only [insertBySn]
      by_cases h : x.1.2 ≤ y.1.2
      · rw [if_pos h]
      · rw [if_neg h]
        exact (ih.cons y).trans (List.Perm.swap x y ys)

theorem perm_sortBySn (l : List ((Ident × Nat) × List Digest)) :
    List.Perm (sortBySn l) l := by
  induction l with
  | nil => exact List.Perm.refl _
  | cons x xs ih => exact (perm_insertBySn x (sortBySn xs)).trans (ih.cons x)

/-- C4 (amended): get_greater_than yields exactly the stored entries with
sequence at least sn — the same digests, with the same multiplicities, as
the ascending-by-sequence enumeration, and each key's digest vector kept in
insertion order — but the keys appear in the hash map's unspecified
iteration order, not necessarily ascending; get_from_sn hydrates that digest
sequence through the log in the same order. -/
theorem get_greater_than_perm_ascending (s : MemorySequencedEventDb)
    (identifier : Ident) (sn : Nat) (e : MemoryEscrowDb) :
    List.Perm (seq_get_greater_than s identifier sn)
      (seq_range_spec s identifier sn) ∧
    escrow_get_from_sn e identifier sn = .ok
      ((seq_get_greater_than e.sequenced identifier sn).filterMap
        (fun d => alookup e.log.events d)) :=
  ⟨(perm_sortBySn _).symm.flatMap_right _, rfl⟩

/-! ## EscrowDatabase::remove frame conditions (C7) -/

/-- C7: remove erases only the (identifier, sequence) to digest pointer of
the given event: afterwards contains is false for that triple, the shared
log is untouched (so the entry for the digest stays retrievable), and the
digest multiset at every other (identifier, sequence, digest) triple is
unchanged. -/
theorem escrow_remove_only_sequenced_pointer (e : MemoryEscrowDb)
    (ev : EventMessage) (D : Digest) (hd : ev.digest = some D) :
    (escrow_remove e ev).log = e.log ∧
    escrow_contains (escrow_remove e ev) ev.data.ident ev.data.sn D =
      .ok false ∧
    (∀ i s d, ¬(i = ev.data.ident ∧ s = ev.data.sn ∧ d = D) →
      List.count d (seq_get (escrow_remove e ev).sequenced i s) =
        List.count d (seq_get e.sequenced i s)) := by
  refine ⟨by simp [escrow_remove, hd], ?_, ?_⟩
  · simp only [escrow_remove, hd, escrow_contains, seq_remove, seq_get]
    rw [alookup_aadjust_self]
    cases alookup e.sequenced.data (ev.data.ident, ev.data.sn) with
    | none => simp
    | some l => simp [List.mem_filter]
  · intro i s d hne
    by_cases hkey : ((i, s) : Ident × Nat) = (ev.data.ident, ev.data.sn)
    · have hdD : d ≠ D := by
        intro hdd
        exact hne ⟨congrArg Prod.fst hkey, congrArg Prod.snd hkey, hdd⟩
      simp only [escrow_remove, hd, seq_get, seq_remove]
      rw [hkey, alookup_aadjust_self]
      cases alookup e.sequenced.data (ev.data.ident, ev.data.sn) with
      | none => simp
      | some l =>
          simp only [Option.map_some, Option.getD_some]
          exact List.count_filter (by simp [hdD])
    · simp only [escrow_remove, hd, seq_get, seq_remove]
      rw [alookup_aadjust_ne _ _ _ _ hkey]

/-- The concrete event removed in the C7 witness. -/
def c7Ev : EventMessage := { data := { ident := "I", sn := 1 }, digest := some "D1" }

/-- A concrete escrow holding digests D1 and DX at (I, 1), D2 at (I, 2), and
a log entry for D1. -/
def c7Esc : MemoryEscrowDb :=
  { sequenced := { data := [(("I", 1), ["D1", "DX"]), (("I", 2), ["D2"])] },
    log := { events := [("D1", { event_message := c7Ev, signatures := [] })],
             signatures := [], nontrans_couplets := [], trans_receipts := [] } }

/-- Witness for C7: after removing the event with digest D1 at (I, 1) from
the concrete escrow, contains for that triple is false. -/
theorem escrow_remove_only_sequenced_pointer_witness :
    escrow_contains (escrow_remove c7Esc c7Ev) "I" 1 "D1" = .ok false :=
  (escrow_remove_only_sequenced_pointer c7Esc c7Ev "D1" rfl).2.1

/-! ## Escrow reads never fail on dangling digests (C9) -/

/-- C9: escrow get and get_from_sn always return Ok, and the returned events
are exactly the log entries of the digests in the sequenced index — a digest
with no log entry contributes nothing and causes no error. -/
theorem escrow_get_skips_dangling (e : MemoryEscrowDb) (identifier : Ident)
    (sn : Nat) :
    (∃ l, escrow_get e identifier sn = .ok l ∧
      ∀ ev, ev ∈ l ↔ ∃ d, d ∈ seq_get e.sequenced identifier sn ∧
        alookup e.log.events d = some ev) ∧
    (∃ l, escrow_get_from_sn e identifier sn = .ok l ∧
      ∀ ev, ev ∈ l ↔ ∃ d, d ∈ seq_get_greater_than e.sequenced identifier sn ∧
        alookup e.log.events d = some ev) := by
  refine ⟨⟨_, rfl, fun ev => ?_⟩, ⟨_, rfl, fun ev => ?_⟩⟩ <;>
    simp [List.mem_filterMap]

/-- A concrete escrow whose sequenced index at (I, 1) holds the digest D1,
which the log resolves, and the dangling digest Dmiss, which it does not. -/
def c9Esc : MemoryEscrowDb :=
  { sequenced := { data := [(("I", 1), ["D1", "Dmiss"])] },
    log := { events := [("D1", mkEvent 1)], signatures := [],
             nontrans_couplets := [], trans_receipts := [] } }

/-- Witness for C9 on the concrete escrow with a dangling digest. -/
theorem escrow_get_skips_dangling_witness :
    ∃ l, escrow_get c9Esc "I" 1 = .ok l ∧
      ∀ ev, ev ∈ l ↔ ∃ d, d ∈ seq_get c9Esc.sequenced "I" 1 ∧
        alookup c9Esc.log.events d = some ev :=
  (escrow_get_skips_dangling c9Esc "I" 1).1

end Keriox
